import Mathlib

/-!
Verification development for the PWA_Next real-time relay.

The hub keeps a bounded history of chat messages (`messages` array with
`MAX_MESSAGES = 100`), a registry of live connections (`connections` map),
and fans messages out with `broadcast(data, excludeClientId)`.  The client
side reconnects with exponential backoff (`src/lib/websocket.ts` and
`src/hooks/useWebSocket.ts`).  Each definition below is a shallow embedding
of one piece of that source; theorems settle the spec claims about them.
-/

namespace Relay

/-- Capacity bound of the history buffer: `const MAX_MESSAGES = 100` in both
server files. -/
def MAX_MESSAGES : Nat := 100

/-- A persisted chat message record as the hub builds it in its message
handler: `{ type: 'message', content, clientId, timestamp }` (the `type`
field is the constant tag, so it is left implicit here). -/
structure MessageData where
  content : String
  clientId : String
  timestamp : String
deriving DecidableEq

/-- One append to the history buffer, mirroring
`messages.push(messageData); if (messages.length > MAX_MESSAGES) messages.shift()`:
insert at the tail, then drop the head when the bound is exceeded. -/
def histAppend (msgs : List α) (m : α) : List α :=
  if MAX_MESSAGES < (msgs ++ [m]).length then (msgs ++ [m]).tail else msgs ++ [m]

/-- The buffer obtained by running a whole sequence of appends from the
initially empty `messages` array. -/
def histRun (ms : List α) : List α := ms.foldl histAppend []

theorem histAppend_length_le (msgs : List α) (m : α)
    (h : msgs.length ≤ MAX_MESSAGES) :
    (histAppend msgs m).length ≤ MAX_MESSAGES := by
  unfold histAppend
  split
  · simp only [List.length_tail, List.length_append, List.length_cons,
      List.length_nil]
    omega
  · next hc =>
    simp only [List.length_append, List.length_cons, List.length_nil] at hc ⊢
    omega

theorem histAppend_eq_drop (msgs : List α) (m : α)
    (h : msgs.length ≤ MAX_MESSAGES) :
    histAppend msgs m = (msgs ++ [m]).drop ((msgs.length + 1) - MAX_MESSAGES) := by
  unfold histAppend
  split
  · next hc =>
    have hone : msgs.length + 1 - MAX_MESSAGES = 1 := by
      simp only [List.length_append, List.length_cons, List.length_nil] at hc
      omega
    rw [hone, List.drop_one]
  · next hc =>
    have hz : msgs.length + 1 - MAX_MESSAGES = 0 := by
      simp only [List.length_append, List.length_cons, List.length_nil] at hc
      omega
    rw [hz, List.drop_zero]

theorem drop_append_drop (X ms : List α) (d j : Nat) (hd : d ≤ X.length) :
    (X.drop d ++ ms).drop j = (X ++ ms).drop (d + j) := by
  have hlen : (X.take d).length = d := by
    simp [List.length_take, Nat.min_eq_left hd]
  have hnil : (X.take d).drop (d + j) = [] := by
    apply List.drop_eq_nil_of_le
    omega
  conv_rhs => rw [← List.take_append_drop d X, List.append_assoc,
    List.drop_append_eq_append_drop, hnil, hlen]
  simp [Nat.add_sub_cancel_left]

theorem histRun_go (ms : List α) : ∀ acc : List α, acc.length ≤ MAX_MESSAGES →
    ms.foldl histAppend acc = (acc ++ ms).drop ((acc.length + ms.length) - MAX_MESSAGES) := by
  induction ms with
  | nil =>
    intro acc h
    simp only [List.foldl_nil, List.append_nil, List.length_nil, Nat.add_zero]
    have hz : acc.length - MAX_MESSAGES = 0 := by omega
    rw [hz, List.drop_zero]
  | cons m ms ih =>
    intro acc h
    rw [List.foldl_cons,
      ih (histAppend acc m) (histAppend_length_le acc m h),
      histAppend_eq_drop acc m h]
    have hd : (acc.length + 1) - MAX_MESSAGES ≤ (acc ++ [m]).length := by
      simp only [List.length_append, List.length_cons, List.length_nil]; omega
    rw [drop_append_drop (acc ++ [m]) ms _ _ hd]
    have hlist : (acc ++ [m]) ++ ms = acc ++ m :: ms := by
      simp
    rw [hlist]
    congr 1
    simp only [List.length_drop, List.length_append, List.length_cons,
      List.length_nil]
    omega

/-- C1: for every sequence of appends through the hub message handler, the
history buffer never exceeds `MAX_MESSAGES = 100` entries, and after the
whole sequence it holds exactly the most recent `min(n, 100)` appended
messages in insertion order (`drop (n - 100)` keeps the suffix, so the
oldest messages are the ones evicted).  Because the statement quantifies
over every sequence `ms`, it applies to every prefix of a run, hence the
bound holds at every step. -/
theorem history_buffer_bounded_recent (ms : List MessageData) :
    (histRun ms).length ≤ MAX_MESSAGES ∧
    (histRun ms).length = min ms.length MAX_MESSAGES ∧
    histRun ms = ms.drop (ms.length - MAX_MESSAGES) := by
  have h := histRun_go ms [] (by simp [MAX_MESSAGES])
  simp only [List.length_nil, Nat.zero_add, List.nil_append] at h
  unfold histRun
  refine ⟨?_, ?_, h⟩
  · rw [h]
    simp only [List.length_drop]
    omega
  · rw [h]
    simp only [List.length_drop]
    omega

/-- The transport-visible state of one registered connection: the WebSocket
`readyState` (1 is OPEN) and whether `ws.send` succeeds (`sendOk = false`
models `connection.ws.send(message)` throwing, which the `catch` block in
`broadcast` handles by deleting the entry). -/
structure Conn where
  readyState : Nat
  sendOk : Bool
deriving DecidableEq

/-- The `connections` map, client id to connection, as an association list in
insertion order (a JS `Map` iterates in insertion order, and deleting the
entry currently visited is safe during iteration). -/
abbrev Registry := List (String × Conn)

/-- The loop guard in `broadcast`:
`clientId !== excludeClientId && connection.ws.readyState === 1`. -/
def wantsSend (ex : String) (e : String × Conn) : Bool :=
  (e.1 != ex) && (e.2.readyState == 1)

/-- One iteration of the `for (const [clientId, connection] of connections)`
loop of `broadcast`: a guarded entry is sent to; when `send` throws, the
`catch` block deletes the entry from the registry and the loop continues;
skipped entries stay.  The accumulator carries the surviving registry in
order and the ids actually delivered to, in order. -/
def broadcastStep (ex : String) (acc : Registry × List String)
    (e : String × Conn) : Registry × List String :=
  if wantsSend ex e then
    if e.2.sendOk then (acc.1 ++ [e], acc.2 ++ [e.1]) else (acc.1, acc.2)
  else (acc.1 ++ [e], acc.2)

/-- `broadcast(data, excludeClientId)`: serialize once, then iterate over the
registry as it was at call start; returns the registry left after the call
and the ids the serialized envelope was delivered to. -/
def broadcast (reg : Registry) (ex : String) : Registry × List String :=
  reg.foldl (broadcastStep ex) ([], [])

theorem broadcast_go (ex : String) :
    ∀ (reg kept : Registry) (sent : List String),
    reg.foldl (broadcastStep ex) (kept, sent) =
      (kept ++ reg.filter (fun e => !(wantsSend ex e && !e.2.sendOk)),
       sent ++ (reg.filter (fun e => wantsSend ex e && e.2.sendOk)).map Prod.fst) := by
  intro reg
  induction reg with
  | nil => intro kept sent; simp
  | cons e rest ih =>
    intro kept sent
    rw [List.foldl_cons]
    by_cases hw : wantsSend ex e
    · by_cases hs : e.2.sendOk
      · have hstep : broadcastStep ex (kept, sent) e = (kept ++ [e], sent ++ [e.1]) := by
          simp [broadcastStep, hw, hs]
        rw [hstep, ih]
        simp [List.filter_cons, hw, hs]
      · have hsf : e.2.sendOk = false := by
          simpa using hs
        have hstep : broadcastStep ex (kept, sent) e = (kept, sent) := by
          simp [broadcastStep, hw, hsf]
        rw [hstep, ih]
        simp [List.filter_cons, hw, hsf]
    · have hwf : wantsSend ex e = false := by
        simpa using hw
      have hstep : broadcastStep ex (kept, sent) e = (kept ++ [e], sent) := by
        simp [broadcastStep, hwf]
      rw [hstep, ih]
      simp [List.filter_cons, hwf]

/-- Closed form of `broadcast`: the surviving registry keeps exactly the
entries whose send did not fail, and the delivered ids are exactly the
guarded entries whose send succeeded, in registry order. -/
theorem broadcast_spec (reg : Registry) (ex : String) :
    broadcast reg ex =
      (reg.filter (fun e => !(wantsSend ex e && !e.2.sendOk)),
       (reg.filter (fun e => wantsSend ex e && e.2.sendOk)).map Prod.fst) := by
  unfold broadcast
  rw [broadcast_go]
  simp

/-- C2 (amended): `broadcast(envelope, excludeIdentity)` never delivers to
the excluded identity, and delivers to every other identity registered at
call start whose transport `readyState` is OPEN (1) and whose `send` does
not throw; registered entries whose socket is not OPEN are skipped. -/
theorem broadcast_excludes_and_covers_open (reg : Registry) (ex : String) :
    (∀ cid ∈ (broadcast reg ex).2, cid ≠ ex) ∧
    (∀ e ∈ reg, e.1 ≠ ex → e.2.readyState = 1 → e.2.sendOk = true →
      e.1 ∈ (broadcast reg ex).2) := by
  rw [broadcast_spec]
  constructor
  · intro cid hcid
    simp only [List.mem_map, List.mem_filter] at hcid
    obtain ⟨e, ⟨_, hpred⟩, hfst⟩ := hcid
    have hne : e.1 != ex := by
      have := Bool.and_elim_left hpred
      exact Bool.and_elim_left this
    rw [← hfst]
    exact bne_iff_ne.mp hne
  · intro e he hne hrs hok
    simp only [List.mem_map, List.mem_filter]
    refine ⟨e, ⟨he, ?_⟩, rfl⟩
    simp [wantsSend, hne, hrs, hok]

/-- Witness for C2 at a concrete registry: with entries `a` and `b` both
OPEN, broadcasting with `b` excluded delivers to `a`. -/
theorem broadcast_excludes_and_covers_open_witness :
    "a" ∈ (broadcast [("a", ⟨1, true⟩), ("b", ⟨1, true⟩)] "b").2 ∧
    ("a" : String) ≠ "b" := by
  refine ⟨?_, by decide⟩
  exact (broadcast_excludes_and_covers_open
      [("a", ⟨1, true⟩), ("b", ⟨1, true⟩)] "b").2
    ("a", ⟨1, true⟩) (by simp) (by decide) rfl rfl

/-- C2 counterexample: entry `a` is registered at call start and differs
from the excluded identity `b`, yet the envelope is not sent to it, because
its `readyState` is 0 (CONNECTING) and the loop guard skips it. -/
theorem broadcast_misses_non_open_entry :
    ("a", (⟨0, true⟩ : Conn)) ∈ ([("a", ⟨0, true⟩)] : Registry) ∧
    ("a" : String) ≠ "b" ∧
    "a" ∉ (broadcast [("a", ⟨0, true⟩)] "b").2 := by
  refine ⟨by simp, by decide, ?_⟩
  simp [broadcast, broadcastStep, wantsSend]

/-- C6: a send failure on one entry is caught in the loop body: the failing
entry is deleted from the registry, every other entry survives, and
delivery still reaches every guarded entry whose own send succeeds; the
loop never aborts and `broadcast` returns normally (it is a total function
here, mirroring the `try`/`catch` that keeps the failure away from the
sender). -/
theorem broadcast_failure_is_local (reg : Registry) (ex : String) :
    broadcast reg ex =
      (reg.filter (fun e => !(wantsSend ex e && !e.2.sendOk)),
       (reg.filter (fun e => wantsSend ex e && e.2.sendOk)).map Prod.fst) ∧
    (∀ e ∈ reg, wantsSend ex e → e.2.sendOk = false →
      e ∉ (broadcast reg ex).1) ∧
    (∀ e ∈ reg, wantsSend ex e → e.2.sendOk = true →
      e.1 ∈ (broadcast reg ex).2) := by
  refine ⟨broadcast_spec reg ex, ?_, ?_⟩
  · intro e _ hw hsf hmem
    rw [broadcast_spec] at hmem
    simp only [List.mem_filter] at hmem
    rw [hw, hsf] at hmem
    simp at hmem
  · intro e he hw hok
    rw [broadcast_spec]
    simp only [List.mem_map, List.mem_filter]
    refine ⟨e, ⟨he, ?_⟩, rfl⟩
    rw [hw, hok]
    rfl

/-- Witness for C6 at a concrete registry: entry `a` fails to send and is
pruned, while delivery still reaches entry `c`. -/
theorem broadcast_failure_is_local_witness :
    ("a", (⟨1, false⟩ : Conn)) ∉
      (broadcast [("a", ⟨1, false⟩), ("c", ⟨1, true⟩)] "b").1 ∧
    "c" ∈ (broadcast [("a", ⟨1, false⟩), ("c", ⟨1, true⟩)] "b").2 := by
  constructor
  · exact (broadcast_failure_is_local
        [("a", ⟨1, false⟩), ("c", ⟨1, true⟩)] "b").2.1
      ("a", ⟨1, false⟩) (by simp) (by decide) rfl
  · exact (broadcast_failure_is_local
        [("a", ⟨1, false⟩), ("c", ⟨1, true⟩)] "b").2.2
      ("c", ⟨1, true⟩) (by simp) (by decide) rfl

/-- A parsed inbound client frame, after `JSON.parse`: exactly the fields
the hub handlers look at.  `Option` models a field the client did not
supply (`undefined` in JS). -/
structure ClientEnvelope where
  type : String
  content : Option String
  clientId : Option String
  timestamp : Option String
deriving DecidableEq

/-- JS truthiness of a possibly-missing string field: `undefined` and the
empty string are falsy, every other string is truthy. -/
def truthyStr : Option String → Bool
  | none => false
  | some s => s != ""

/-- An inbound frame: either text that `JSON.parse` rejects, or a parsed
envelope. -/
inductive Inbound
  | malformed
  | parsed (m : ClientEnvelope)
deriving DecidableEq

/-- A hub-to-client envelope, per the wire table: `connected`, `userCount`,
`message` and `pong` are the variants the hub emits. -/
inductive Envelope
  | connected (clientId : String) (userCount : Nat)
      (recentMessages : List MessageData)
  | userCount (count : Nat)
  | message (m : MessageData)
  | pong
deriving DecidableEq

/-- A transport effect a handler performs: a direct `ws.send` to the
session's own socket, a `broadcast` of a hub-built envelope, or (legacy
`server.js` only) a `broadcast` of the raw parsed client envelope. -/
inductive Output
  | send (e : Envelope)
  | bcast (e : Envelope) (exclude : String)
  | bcastRaw (m : ClientEnvelope) (exclude : String)
deriving DecidableEq

/-- The hub state the standalone server and the API-route server mutate:
the `connections` map and the `messages` array. -/
structure HubState where
  reg : Registry
  hist : List MessageData
deriving DecidableEq

/-- The `ws.on('message')` handler of the standalone ws server (and,
identically, of the Next API route): the whole body sits in `try`/`catch`,
so a `JSON.parse` failure is logged and discarded; a `message` frame with
truthy `content` is stamped with the session's `clientId` and the hub
timestamp, appended to history and broadcast excluding the sender; `ping`
gets a direct `pong`; any other tag falls through and is ignored. -/
def standaloneOnMessage (cid now : String) (st : HubState) (fr : Inbound) :
    HubState × List Output :=
  match fr with
  | Inbound.malformed => (st, [])
  | Inbound.parsed m =>
    if m.type == "message" && truthyStr m.content then
      ({ st with hist := histAppend st.hist ⟨m.content.getD "", cid, now⟩ },
       [Output.bcast (Envelope.message ⟨m.content.getD "", cid, now⟩) cid])
    else if m.type == "ping" then (st, [Output.send Envelope.pong])
    else (st, [])

/-- A history record of the legacy `server.js`:
`{ type, content, clientId, timestamp }` with `content` taken verbatim from
the client (possibly `undefined`) and `clientId`/`timestamp` hub-assigned. -/
structure LegacyRecord where
  type : String
  content : Option String
  clientId : String
  timestamp : String
deriving DecidableEq

/-- The hub state of the legacy `server.js`. -/
structure LegacyState where
  reg : Registry
  hist : List LegacyRecord
deriving DecidableEq

/-- The `ws.on('message')` handler of the legacy `server.js`: no
`try`/`catch`, so an unparsable frame makes `JSON.parse` throw out of the
handler (modelled as `Except.error`); a `message` frame is appended to
history with hub-assigned `clientId`/`timestamp` but no content check, and
the raw client envelope is what gets broadcast. -/
def legacyOnMessage (cid now : String) (st : LegacyState) (fr : Inbound) :
    Except Unit (LegacyState × List Output) :=
  match fr with
  | Inbound.malformed => Except.error ()
  | Inbound.parsed m =>
    if m.type == "message" then
      Except.ok ({ st with hist := histAppend st.hist ⟨m.type, m.content, cid, now⟩ },
        [Output.bcastRaw m cid])
    else if m.type == "ping" then Except.ok (st, [Output.send Envelope.pong])
    else Except.ok (st, [])

/-- The `wss.on('connection')` body: register the fresh identity, send the
`connected` envelope carrying the post-registration count and
`messages.slice(-10)`, then broadcast the `userCount` envelope excluding
the new client.  The fresh-uuid identity means an append models
`connections.set`, and the association-list length is `connections.size`. -/
def connectStep (st : HubState) (cid : String) (c : Conn) :
    HubState × List Output :=
  let reg1 := st.reg ++ [(cid, c)]
  let userCount := reg1.length
  ({ st with reg := reg1 },
   [Output.send (Envelope.connected cid userCount
      (st.hist.drop (st.hist.length - 10))),
    Output.bcast (Envelope.userCount userCount) cid])

/-- The `ws.on('close')` and `ws.on('error')` bodies (identical as far as
state and outputs go): delete the entry — `Map.delete` removes at most the
one entry with that key, a no-op when absent — recompute the count from the
registry, and broadcast it excluding the departed client. -/
def disconnectStep (st : HubState) (cid : String) : HubState × List Output :=
  let reg1 := st.reg.eraseP (fun e => e.1 == cid)
  let count := reg1.length
  ({ st with reg := reg1 }, [Output.bcast (Envelope.userCount count) cid])

/-- C3: the `userCount` envelope broadcast after a connection accept carries
the post-registration registry size, and the one broadcast after a
close/error carries the post-removal registry size — in both handlers the
count is recomputed from the registry (`connections.size`) at the moment of
the broadcast; no independent counter exists in the state. -/
theorem userCount_tracks_registry (st : HubState) (cid : String) (c : Conn) :
    (connectStep st cid c).2 =
      [Output.send (Envelope.connected cid (connectStep st cid c).1.reg.length
          (st.hist.drop (st.hist.length - 10))),
       Output.bcast (Envelope.userCount (connectStep st cid c).1.reg.length) cid] ∧
    (disconnectStep st cid).2 =
      [Output.bcast (Envelope.userCount (disconnectStep st cid).1.reg.length) cid] ∧
    (connectStep st cid c).1.reg.length = st.reg.length + 1 := by
  refine ⟨rfl, rfl, ?_⟩
  simp [connectStep]

/-- C7 (amended): the handlers whose body sits in `try`/`catch` (standalone
ws server and Next API route) discard malformed frames and unknown envelope
tags, leaving registry and history untouched and the connection registered;
the legacy `server.js` handler has no `try`/`catch`, so an unparsable frame
throws out of the message handler. -/
theorem malformed_frame_handling (cid now : String) (st : HubState)
    (stL : LegacyState) (m : ClientEnvelope)
    (hmsg : m.type ≠ "message") (hping : m.type ≠ "ping") :
    standaloneOnMessage cid now st Inbound.malformed = (st, []) ∧
    standaloneOnMessage cid now st (Inbound.parsed m) = (st, []) ∧
    legacyOnMessage cid now stL Inbound.malformed = Except.error () := by
  have h1 : (m.type == "message") = false := by simpa using hmsg
  have h2 : (m.type == "ping") = false := by simpa using hping
  refine ⟨rfl, ?_, rfl⟩
  simp [standaloneOnMessage, h1, h2]

/-- Witness for C7 at a concrete unknown-tag frame and a malformed frame. -/
theorem malformed_frame_handling_witness :
    standaloneOnMessage "c1" "t1" ⟨[], []⟩ Inbound.malformed = (⟨[], []⟩, []) ∧
    standaloneOnMessage "c1" "t1" ⟨[], []⟩
      (Inbound.parsed ⟨"bogus", none, none, none⟩) = (⟨[], []⟩, []) ∧
    legacyOnMessage "c1" "t1" ⟨[], []⟩ Inbound.malformed = Except.error () :=
  malformed_frame_handling "c1" "t1" ⟨[], []⟩ ⟨[], []⟩
    ⟨"bogus", none, none, none⟩ (by decide) (by decide)

/-- C7 counterexample: in the legacy `server.js` message handler an
unparsable frame is not discarded — `JSON.parse` is unguarded and the
exception leaves the handler. -/
theorem legacy_malformed_throws :
    legacyOnMessage "c1" "t1" ⟨[], []⟩ Inbound.malformed =
      Except.error () := rfl

/-- C8 (amended): the hub guard is JS truthiness of `content` with no
trimming — missing or empty-string content is silently dropped (nothing
appended, nothing broadcast), while any non-empty content, including
whitespace-only strings, is appended to history and broadcast excluding the
sender. -/
theorem message_content_guard (cid now : String) (st : HubState)
    (cl ts : Option String) (s : String) (hs : s ≠ "") :
    standaloneOnMessage cid now st
      (Inbound.parsed ⟨"message", none, cl, ts⟩) = (st, []) ∧
    standaloneOnMessage cid now st
      (Inbound.parsed ⟨"message", some "", cl, ts⟩) = (st, []) ∧
    standaloneOnMessage cid now st
      (Inbound.parsed ⟨"message", some s, cl, ts⟩) =
      ({ st with hist := histAppend st.hist ⟨s, cid, now⟩ },
       [Output.bcast (Envelope.message ⟨s, cid, now⟩) cid]) := by
  have ht : truthyStr (some s) = true := by
    simpa [truthyStr] using hs
  refine ⟨by simp [standaloneOnMessage, truthyStr], by simp [standaloneOnMessage, truthyStr], ?_⟩
  simp [standaloneOnMessage, ht]

/-- Witness for C8 at concrete content values. -/
theorem message_content_guard_witness :
    standaloneOnMessage "c1" "t1" ⟨[], []⟩
      (Inbound.parsed ⟨"message", none, none, none⟩) = (⟨[], []⟩, []) ∧
    standaloneOnMessage "c1" "t1" ⟨[], []⟩
      (Inbound.parsed ⟨"message", some "", none, none⟩) = (⟨[], []⟩, []) ∧
    standaloneOnMessage "c1" "t1" ⟨[], []⟩
      (Inbound.parsed ⟨"message", some "hi", none, none⟩) =
      (⟨[], histAppend [] ⟨"hi", "c1", "t1"⟩⟩,
       [Output.bcast (Envelope.message ⟨"hi", "c1", "t1"⟩) "c1"]) :=
  message_content_guard "c1" "t1" ⟨[], []⟩ none none "hi" (by decide)

/-- C8 counterexample: whitespace-only content `" "` is truthy in JS, so the
hub appends it to history and broadcasts it instead of silently dropping
it as the claim states. -/
theorem whitespace_content_not_dropped :
    standaloneOnMessage "c1" "t1" ⟨[], []⟩
      (Inbound.parsed ⟨"message", some " ", none, none⟩) =
      (⟨[], [⟨" ", "c1", "t1"⟩]⟩,
       [Output.bcast (Envelope.message ⟨" ", "c1", "t1"⟩) "c1"]) := by
  simp [standaloneOnMessage, truthyStr, histAppend, MAX_MESSAGES]

/-- C9 (amended): the standalone/API-route handler builds both the history
record and the broadcast envelope from the hub-assigned `clientId` and hub
timestamp, whatever `clientId`/`timestamp` the client supplied; the legacy
`server.js` handler stamps its history record with hub-assigned values but
broadcasts the raw client envelope, so client-supplied `clientId` and
`timestamp` pass through to the other clients on that path. -/
theorem hub_assigns_identity_and_time (cid now : String) (st : HubState)
    (stL : LegacyState) (s : String) (hs : s ≠ "") (cl ts : Option String) :
    standaloneOnMessage cid now st
      (Inbound.parsed ⟨"message", some s, cl, ts⟩) =
      ({ st with hist := histAppend st.hist ⟨s, cid, now⟩ },
       [Output.bcast (Envelope.message ⟨s, cid, now⟩) cid]) ∧
    legacyOnMessage cid now stL
      (Inbound.parsed ⟨"message", some s, cl, ts⟩) =
      Except.ok
        ({ stL with hist := histAppend stL.hist ⟨"message", some s, cid, now⟩ },
         [Output.bcastRaw ⟨"message", some s, cl, ts⟩ cid]) := by
  have ht : truthyStr (some s) = true := by
    simpa [truthyStr] using hs
  refine ⟨?_, ?_⟩
  · simp [standaloneOnMessage, ht]
  · simp [legacyOnMessage]

/-- Witness for C9 at concrete inputs. -/
theorem hub_assigns_identity_and_time_witness :
    standaloneOnMessage "hub" "t1" ⟨[], []⟩
      (Inbound.parsed ⟨"message", some "hi", some "x", some "y"⟩) =
      (⟨[], histAppend [] ⟨"hi", "hub", "t1"⟩⟩,
       [Output.bcast (Envelope.message ⟨"hi", "hub", "t1"⟩) "hub"]) ∧
    legacyOnMessage "hub" "t1" ⟨[], []⟩
      (Inbound.parsed ⟨"message", some "hi", some "x", some "y"⟩) =
      Except.ok (⟨[], histAppend [] ⟨"message", some "hi", "hub", "t1"⟩⟩,
       [Output.bcastRaw ⟨"message", some "hi", some "x", some "y"⟩ "hub"]) :=
  hub_assigns_identity_and_time "hub" "t1" ⟨[], []⟩ ⟨[], []⟩ "hi" (by decide)
    (some "x") (some "y")

/-- C9 counterexample: on the legacy path the envelope broadcast to the
other clients carries the client-supplied `clientId` value `"spoofed"` and
the client-supplied timestamp, not the hub-assigned ones. -/
theorem legacy_broadcasts_client_fields :
    legacyOnMessage "hub" "2024-01-01T00:00:00.000Z" ⟨[], []⟩
      (Inbound.parsed ⟨"message", some "hi", some "spoofed", some "1999"⟩) =
      Except.ok
        (⟨[], [⟨"message", some "hi", "hub", "2024-01-01T00:00:00.000Z"⟩]⟩,
         [Output.bcastRaw ⟨"message", some "hi", some "spoofed", some "1999"⟩
            "hub"]) ∧
    ("spoofed" : String) ≠ "hub" := by
  refine ⟨?_, by decide⟩
  simp [legacyOnMessage, histAppend, MAX_MESSAGES]

/-- The mutable fields of `WebSocketClient` (`src/lib/websocket.ts`) that
the reconnection logic touches, plus the underlying socket's queued close
event: `wsAttached` models `this.ws !== null`; `pendingClose` models a
closed socket whose `onclose` handler has not yet run — assigning
`this.ws = null` does not detach the handler, so the event still reaches
this client.  Timer delays are rationals in milliseconds. -/
structure WSClient where
  wsAttached : Bool
  pendingClose : Bool
  reconnectAttempts : Nat
  reconnectTimer : Option Rat
deriving DecidableEq

/-- `scheduleReconnect` of `WebSocketClient`: give up once
`reconnectAttempts >= maxReconnectAttempts` (5); otherwise replace any
pending timer with one firing after
`reconnectInterval * Math.pow(2, reconnectAttempts)` ms, base 3000. -/
def scheduleReconnectC (s : WSClient) : WSClient :=
  if 5 ≤ s.reconnectAttempts then s
  else { s with reconnectTimer := some (3000 * 2 ^ s.reconnectAttempts) }

/-- The `setTimeout` callback of `WebSocketClient.scheduleReconnect`:
increment `reconnectAttempts`, then `connect()` creates a fresh socket. -/
def timerFiresC (s : WSClient) : WSClient :=
  { s with reconnectTimer := none,
           reconnectAttempts := s.reconnectAttempts + 1,
           wsAttached := true }

/-- `ws.onopen` of `WebSocketClient`: reset the attempt counter to 0. -/
def onOpenC (s : WSClient) : WSClient := { s with reconnectAttempts := 0 }

/-- `ws.onclose` of `WebSocketClient`: notify handlers, then
`scheduleReconnect()`. -/
def onCloseC (s : WSClient) : WSClient := scheduleReconnectC s

/-- `WebSocketClient.disconnect()`: clear any pending reconnect timer, then
`close()` the socket and null the field.  Closing queues the socket's close
event; the `onclose` handler stays attached. -/
def disconnectC (s : WSClient) : WSClient :=
  let s1 := { s with reconnectTimer := none }
  if s1.wsAttached then { s1 with wsAttached := false, pendingClose := true }
  else s1

/-- Delivery of a queued close event: the socket's `onclose` handler runs. -/
def deliverCloseC (s : WSClient) : WSClient :=
  if s.pendingClose then onCloseC { s with pendingClose := false } else s

/-- The delays scheduled across `n` consecutive connection failures of
`WebSocketClient`: each failure closes the socket and `onclose` runs
`scheduleReconnect`; when a timer was scheduled it fires — the counter
increments and `connect()` opens a socket that fails in turn — and when
none was, the controller has given up. -/
def failureDelaysC : Nat → WSClient → List Rat
  | 0, _ => []
  | n + 1, s =>
    let s1 := onCloseC { s with wsAttached := false }
    match s1.reconnectTimer with
    | none => []
    | some d => d :: failureDelaysC n (timerFiresC s1)

/-- The reconnection refs of the `useWebSocket` hook:
`reconnectAttemptsRef.current` and `reconnectTimerRef.current`.  Here
`connect()` increments the counter before the outcome is known and the
backoff exponent is `reconnectAttempts - 1` as a JS number, so counter 0
yields `3000 * 2^(-1) = 1500`. -/
structure HookState where
  reconnectAttempts : Nat
  reconnectTimer : Option Rat
deriving DecidableEq

/-- `scheduleReconnect` of the hook: stop at 5 attempts, else schedule
after `reconnectInterval * Math.pow(2, reconnectAttemptsRef.current - 1)`
ms, base 3000, with an integer (possibly negative) exponent. -/
def scheduleReconnectH (s : HookState) : HookState :=
  if 5 ≤ s.reconnectAttempts then s
  else
    { s with reconnectTimer := some (3000 * (2 : Rat) ^ ((s.reconnectAttempts : Int) - 1)) }

/-- `connect()` of the hook: bump the attempt counter, then open a socket. -/
def connectH (s : HookState) : HookState :=
  { s with reconnectAttempts := s.reconnectAttempts + 1 }

/-- `onopen` of the hook: reset the attempt counter to 0. -/
def onOpenH (s : HookState) : HookState := { s with reconnectAttempts := 0 }

/-- `onclose` of the hook: `scheduleReconnect()`. -/
def onCloseH (s : HookState) : HookState := scheduleReconnectH s

/-- The hook's `setTimeout` callback: `connect()`. -/
def timerFiresH (s : HookState) : HookState :=
  connectH { s with reconnectTimer := none }

/-- The delays scheduled across `n` consecutive connection failures of the
hook controller, analogous to `failureDelaysC`. -/
def failureDelaysH : Nat → HookState → List Rat
  | 0, _ => []
  | n + 1, s =>
    let s1 := onCloseH s
    match s1.reconnectTimer with
    | none => []
    | some d => d :: failureDelaysH n (timerFiresH s1)

/-- C4 (amended): for `WebSocketClient` the claim holds as stated — from a
fresh or just-successfully-connected state (`reconnectAttempts = 0`) the
consecutive failure delays are 3000, 6000, 12000, 24000, 48000 ms, a 6th
consecutive failure schedules nothing further, and `onopen` resets the
counter.  The `useWebSocket` hook counts differently: `connect()`
increments before the outcome and the exponent is `attempts - 1`, so a
fresh run (counter already 1 after the mount `connect()`) schedules 3000,
6000, 12000, 24000 and its 5th consecutive failure schedules nothing,
while a run starting just after a successful connection (counter 0)
schedules 1500, 3000, 6000, 12000, 24000. -/
theorem reconnect_backoff_schedules :
    failureDelaysC 6 ⟨true, false, 0, none⟩ =
      [3000, 6000, 12000, 24000, 48000] ∧
    failureDelaysC 7 ⟨true, false, 0, none⟩ =
      [3000, 6000, 12000, 24000, 48000] ∧
    (∀ s : WSClient, (onOpenC s).reconnectAttempts = 0) ∧
    failureDelaysH 6 ⟨1, none⟩ = [3000, 6000, 12000, 24000] ∧
    failureDelaysH 7 ⟨0, none⟩ = [1500, 3000, 6000, 12000, 24000] ∧
    (∀ s : HookState, (onOpenH s).reconnectAttempts = 0) := by
  refine ⟨?_, ?_, fun s => rfl, ?_, ?_, fun s => rfl⟩ <;>
    norm_num [failureDelaysC, onCloseC, scheduleReconnectC, timerFiresC,
      failureDelaysH, onCloseH, scheduleReconnectH, timerFiresH, connectH]

/-- C4 counterexample: on the hook controller a fresh run's failure delays
are only 3000, 6000, 12000, 24000 — there is no 48000 ms attempt, and the
5th (not 6th) consecutive failure already schedules nothing. -/
theorem hook_backoff_diverges :
    failureDelaysH 6 ⟨1, none⟩ = [3000, 6000, 12000, 24000] ∧
    failureDelaysH 6 ⟨1, none⟩ ≠ [3000, 6000, 12000, 24000, 48000] := by
  constructor <;>
    norm_num [failureDelaysH, onCloseH, scheduleReconnectH, timerFiresH,
      connectH]

/-- C5: `disconnect()` does cancel the pending timer and close the socket,
but the closed socket's `onclose` handler is still attached and runs
`scheduleReconnect()` when the queued close event is delivered, so a
further reconnection attempt (3000 ms timer) IS scheduled after
`disconnect()` returns — the code contradicts the spec's cancellation
requirement. -/
theorem disconnect_then_close_event_reschedules :
    disconnectC ⟨true, false, 0, none⟩ = ⟨false, true, 0, none⟩ ∧
    (disconnectC ⟨true, false, 0, none⟩).reconnectTimer = none ∧
    (deliverCloseC (disconnectC ⟨true, false, 0, none⟩)).reconnectTimer =
      some 3000 := by
  refine ⟨rfl, rfl, ?_⟩
  norm_num [disconnectC, deliverCloseC, onCloseC, scheduleReconnectC]

/-- The guard and record construction of the hook's `onmessage`
`case 'message'` arm: accept only when `content`, `clientId` and
`timestamp` are all truthy, copying those fields. -/
def acceptedMessage (m : ClientEnvelope) : Option MessageData :=
  if truthyStr m.content && truthyStr m.clientId && truthyStr m.timestamp then
    some ⟨m.content.getD "", m.clientId.getD "", m.timestamp.getD ""⟩
  else none

/-- The state update of that arm:
`setMessages(prev => [newMessage, ...prev].slice(0, 100))` when accepted,
no change otherwise.  (The `connected` arm replaces the list with the
server's short history slice and the remaining arms never touch the list;
the claim is about this arm.) -/
def hookOnMessage (msgs : List MessageData) (m : ClientEnvelope) :
    List MessageData :=
  match acceptedMessage m with
  | some md => (md :: msgs).take 100
  | none => msgs

/-- Processing a whole sequence of inbound message envelopes from the
initial empty list. -/
def hookRun (es : List ClientEnvelope) : List MessageData :=
  es.foldl hookOnMessage []

theorem take_append_take (X l : List α) (k : Nat) :
    (X ++ l.take k).take k = (X ++ l).take k := by
  rw [List.take_append_eq_append_take, List.take_append_eq_append_take,
    List.take_take, Nat.min_eq_left (Nat.sub_le k X.length)]

theorem hookRun_go (es : List ClientEnvelope) :
    ∀ acc : List MessageData, acc.length ≤ 100 →
    es.foldl hookOnMessage acc =
      ((es.filterMap acceptedMessage).reverse ++ acc).take 100 := by
  induction es with
  | nil =>
    intro acc h
    simp [List.take_of_length_le h]
  | cons e es ih =>
    intro acc h
    rw [List.foldl_cons]
    cases hm : acceptedMessage e with
    | none =>
      have hstep : hookOnMessage acc e = acc := by
        simp [hookOnMessage, hm]
      rw [hstep, ih acc h]
      simp [List.filterMap_cons, hm]
    | some md =>
      have hstep : hookOnMessage acc e = (md :: acc).take 100 := by
        simp [hookOnMessage, hm]
      have hlen : ((md :: acc).take 100).length ≤ 100 := by
        rw [List.length_take]
        exact Nat.min_le_left _ _
      rw [hstep, ih _ hlen, take_append_take]
      simp [List.filterMap_cons, hm, List.append_assoc]

/-- C10: the hook's receive handler drops every inbound message envelope
with a missing (or empty, hence falsy) `content`, `clientId` or
`timestamp`; each accepted one is prepended and the list truncated to 100,
so after any sequence of inbound message envelopes the list holds exactly
the accepted messages newest-first, truncated to the 100 most recent, and
in particular never exceeds 100 entries. -/
theorem client_list_bounded_newest_first (es : List ClientEnvelope)
    (msgs : List MessageData) (m : ClientEnvelope)
    (hlack : truthyStr m.content = false ∨ truthyStr m.clientId = false ∨
      truthyStr m.timestamp = false) :
    hookOnMessage msgs m = msgs ∧
    hookRun es = ((es.filterMap acceptedMessage).reverse).take 100 ∧
    (hookRun es).length ≤ 100 := by
  have hnone : acceptedMessage m = none := by
    rcases hlack with h | h | h <;> simp [acceptedMessage, h]
  refine ⟨by simp [hookOnMessage, hnone], ?_, ?_⟩
  · have h := hookRun_go es [] (by simp)
    simpa [hookRun] using h
  · have h := hookRun_go es [] (by simp)
    unfold hookRun
    rw [h, List.length_take]
    exact Nat.min_le_left _ _

/-- Witness for C10: an envelope lacking `clientId` and `timestamp` is
dropped, and a two-envelope run keeps the accepted message. -/
theorem client_list_bounded_newest_first_witness :
    hookOnMessage [] ⟨"message", some "hi", none, none⟩ = [] ∧
    hookRun [⟨"message", some "hi", none, none⟩] =
      (([⟨"message", some "hi", none, none⟩].filterMap
        acceptedMessage).reverse).take 100 ∧
    (hookRun [⟨"message", some "hi", none, none⟩]).length ≤ 100 :=
  client_list_bounded_newest_first [⟨"message", some "hi", none, none⟩] []
    ⟨"message", some "hi", none, none⟩ (Or.inr (Or.inl rfl))

end Relay
